import Mathlib

/-!
Verification of the `es2ts` Elementary-Stream-to-Transport-Stream converter
and of the `printing.h` output-redirection table.

Byte sequences are modelled as `List Nat` (each element a byte value).
The orchestration code (`transfer_data`, `main`'s stream-type decision and
option handling) is embedded from the source file.  The library routines the
source calls (`find_and_build_next_ES_unit`, `write_ES_as_TS_PES_packet`,
`write_TS_program_data`, `decide_ES_file_video_type`) are not part of this
repository snapshot and are modelled from the specification, as noted on each
definition.

Recursions that consume a list by more than one element per step are written
with an explicit fuel argument (instantiated with the list length) so that all
definitions compute by kernel reduction.
-/

/-! ## Startcode scanning and ES unit building -/

/-- Modelled from the spec: the StartcodeScanner of `es.cpp`
(`find_and_build_next_ES_unit` support code) is not in the snapshot.
`findSC s` returns the offset of the first `00 00 01` startcode prefix
in `s`, if any. -/
def findSC : List Nat → Option Nat
  | 0 :: 0 :: 1 :: _ => some 0
  | _ :: b :: c :: rest => (findSC (b :: c :: rest)).map (· + 1)
  | _ => none

/-- Modelled from the spec: the ESUnitBuilder of `es.cpp`
(`find_and_build_next_ES_unit`) is not in the snapshot.
`unitsFromF fuel s` splits `s` — which is expected to begin with a
startcode prefix — into ES units: each unit starts with `00 00 01 sc`
and extends up to (not including) the next startcode prefix found after
its own four leading bytes.  A tail shorter than four bytes (a truncated
startcode at end of stream) yields no unit, matching the builder hitting
EOF while reading the startcode byte.  `fuel` bounds the recursion depth;
`s.length` is always enough. -/
def unitsFromF : Nat → List Nat → List (List Nat)
  | 0, _ => []
  | fuel + 1, s =>
    if s.length < 4 then []
    else
      match findSC (s.drop 4) with
      | none => [s]
      | some j => s.take (4 + j) :: unitsFromF fuel (s.drop (4 + j))

/-- ES units of a byte sequence beginning with a startcode prefix. -/
def unitsFrom (s : List Nat) : List (List Nat) :=
  unitsFromF s.length s

/-- `wfTailF fuel s` decides whether the unit decomposition of `s` is
lossless: every recursive tail is either empty or at least four bytes
long, i.e. the stream does not end in a truncated startcode. -/
def wfTailF : Nat → List Nat → Bool
  | 0, s => s.isEmpty
  | fuel + 1, s =>
    if s.length < 4 then s.isEmpty
    else
      match findSC (s.drop 4) with
      | none => true
      | some j => wfTailF fuel (s.drop (4 + j))

/-- A byte sequence starting at a startcode decomposes into units without
loss exactly when `wfTail` holds. -/
def wfTail (s : List Nat) : Bool :=
  wfTailF s.length s

/-- Modelled from the spec: `find_and_build_next_ES_unit` of `es.cpp` is not
in the snapshot.  `esUnits input` is the sequence of ES units the builder
delivers before returning EOF: leading bytes before the first startcode are
discarded, then `input` is split at startcode prefixes. -/
def esUnits (s : List Nat) : List (List Nat) :=
  match findSC s with
  | none => []
  | some i => unitsFrom (s.drop i)

/-! ## PES packing -/

/-- Modelled from the spec: `write_ES_as_TS_PES_packet` of `pes.cpp` is not in
the snapshot.  `pesPack u` wraps one ES unit into a PES packet: startcode
prefix, stream id `0xE0` (`DEFAULT_VIDEO_STREAM_ID`), a two-byte length field
holding payload length plus the three trailing header bytes (or 0 when that
exceeds 65535), flags `0x80 0x00`, header-data length 0, then the unit. -/
def pesPack (u : List Nat) : List Nat :=
  let n := u.length + 3
  let lenField := if 65535 < n then 0 else n
  [0x00, 0x00, 0x01, 0xE0, lenField / 256, lenField % 256, 0x80, 0x00, 0x00] ++ u

/-! ## TS packetization -/

/-- Four-byte TS packet header: sync byte `0x47`; PUSI bit and the top five
PID bits; low PID byte; adaptation-field control (two bits) and the
continuity counter (four bits). -/
def tsHeader (pid : Nat) (pusi : Bool) (afc cc : Nat) : List Nat :=
  [0x47, (if pusi then 0x40 else 0) + pid / 256 % 32, pid % 256, afc * 16 + cc % 16]

/-- Stuffing-only adaptation field of total size `n ≥ 1`: a length byte
`n - 1`, then (when the length is non-zero) a zero flags byte followed by
`0xFF` stuffing. -/
def adaptStuffing (n : Nat) : List Nat :=
  if n ≤ 1 then [0]
  else (n - 1) :: 0x00 :: List.replicate (n - 2) 0xFF

/-- One TS packet for a payload chunk of at most 184 bytes: control `01`
(payload only) when the chunk fills the packet exactly, otherwise control
`11` with a stuffing-only adaptation field in front of the payload. -/
def mkTsPacket (pid : Nat) (pusi : Bool) (cc : Nat) (chunk : List Nat) : List Nat :=
  if chunk.length = 184 then tsHeader pid pusi 1 cc ++ chunk
  else tsHeader pid pusi 3 cc ++ adaptStuffing (184 - chunk.length) ++ chunk

/-- Split a byte sequence into chunks of 184 bytes, the last chunk possibly
shorter (but never empty).  `fuel` bounds recursion depth; the list length
is always enough. -/
def chunk184F : Nat → List Nat → List (List Nat)
  | 0, _ => []
  | fuel + 1, l =>
    if l.length = 0 then []
    else if 184 ≤ l.length then l.take 184 :: chunk184F fuel (l.drop 184)
    else [l]

/-- 184-byte payload chunks of a PES packet. -/
def chunk184 (l : List Nat) : List (List Nat) :=
  chunk184F l.length l

/-- TS packets for a list of payload chunks: the first packet carries the
given PUSI flag, all later ones PUSI 0; the continuity counter advances by
one per packet. -/
def tsPacketsAux (pid : Nat) : List (List Nat) → Bool → Nat → List (List Nat)
  | [], _, _ => []
  | c :: rest, pusi, cc => mkTsPacket pid pusi cc c :: tsPacketsAux pid rest false (cc + 1)

/-- Modelled from the spec: the TSPacketizer of `ts.cpp` is not in the
snapshot.  Fragments one PES packet into 188-byte TS packets on `pid`,
PUSI set on the first packet only. -/
def tsPackets (pid : Nat) (pes : List Nat) (cc : Nat) : List (List Nat) :=
  tsPacketsAux pid (chunk184 pes) true cc

/-! ## PSI tables -/

/-- One step of the CRC-32/MPEG-2 shift register: shift left, and on carry
out of bit 31 fold in the polynomial `0x04C11DB7`. -/
def crcShift (c : Nat) : Nat :=
  if c / 2 ^ 31 % 2 = 1 then ((c * 2) % 2 ^ 32) ^^^ 0x04C11DB7
  else (c * 2) % 2 ^ 32

/-- Feed one byte (MSB first) into the CRC-32/MPEG-2 register. -/
def crcByte (c b : Nat) : Nat :=
  (List.range 8).foldl (fun acc _ => crcShift acc) (c ^^^ b % 256 * 2 ^ 24)

/-- CRC-32/MPEG-2: polynomial `0x04C11DB7`, initial value `0xFFFFFFFF`,
no reflection, no final xor. -/
def crc32_mpeg2 (l : List Nat) : Nat :=
  l.foldl crcByte 0xFFFFFFFF

/-- Big-endian byte serialization of a 32-bit CRC value. -/
def crcBytes (c : Nat) : List Nat :=
  [c / 2 ^ 24 % 256, c / 2 ^ 16 % 256, c / 2 ^ 8 % 256, c % 256]

/-- Modelled from the spec: the PAT builder inside `write_TS_program_data` of
`ts.cpp` is not in the snapshot.  One-program PAT section: transport stream
id 1, version 0, program 1 mapped to `pmt_pid`, closed by its CRC. -/
def patSection (pmt_pid : Nat) : List Nat :=
  let body := [0x00, 0xB0, 0x0D, 0x00, 0x01, 0xC1, 0x00, 0x00,
               0x00, 0x01, 0xE0 + pmt_pid / 256 % 32, pmt_pid % 256]
  body ++ crcBytes (crc32_mpeg2 body)

/-- Modelled from the spec: the PMT builder inside `write_TS_program_data` of
`ts.cpp` is not in the snapshot.  PMT section for program 1: PCR PID equal to
the video PID, no program info, one elementary stream entry carrying
`stream_type` and the video PID, closed by its CRC. -/
def pmtSection (video_pid stream_type : Nat) : List Nat :=
  let body := [0x02, 0xB0, 0x12, 0x00, 0x01, 0xC1, 0x00, 0x00,
               0xE0 + video_pid / 256 % 32, video_pid % 256, 0xF0, 0x00,
               stream_type,
               0xE0 + video_pid / 256 % 32, video_pid % 256, 0xF0, 0x00]
  body ++ crcBytes (crc32_mpeg2 body)

/-- Modelled from the spec: PSI emission by the TSPacketizer (`ts.cpp`) is not
in the snapshot.  A PSI section rides in a single TS packet: PUSI 1, a zero
pointer field, the section, then `0xFF` stuffing up to 188 bytes. -/
def psiPacket (pid : Nat) (sec : List Nat) (cc : Nat) : List Nat :=
  tsHeader pid true 1 cc ++ 0x00 :: sec ++ List.replicate (183 - sec.length) 0xFF

/-! ## The transfer loop and the main pipeline -/

/-- TS packet runs, one run per ES unit, threading the video continuity
counter across units. -/
def unitBlocks (pid : Nat) : List (List Nat) → Nat → List (List (List Nat))
  | [], _ => []
  | u :: rest, cc =>
    tsPackets pid (pesPack u) cc ::
      unitBlocks pid rest (cc + (tsPackets pid (pesPack u) cc).length)

/-- The unit-copying loop of `transfer_data` (`es2ts.cpp` lines 65–91):
fetch the next ES unit (EOF ends the loop), write it as PES within TS, and
after writing stop once `max2 > 0` units have been transferred. -/
def transferLoop (pid : Nat) : List (List Nat) → Nat → Nat → Nat → List (List Nat)
  | [], _, _, _ => []
  | u :: rest, max2, count, cc =>
    let pkts := tsPackets pid (pesPack u) cc
    if 0 < max2 ∧ max2 ≤ count + 1 then pkts
    else pkts ++ transferLoop pid rest max2 (count + 1) (cc + pkts.length)

/-- `transfer_data` (`es2ts.cpp` lines 48–95): first the PAT and PMT via
`write_TS_program_data` (transport stream id 1, program 1), then the unit
loop.  All continuity counters start at zero at output open. -/
def transfer_data (video_pid pmt_pid stream_type max2 : Nat)
    (units : List (List Nat)) : List (List Nat) :=
  psiPacket 0 (patSection pmt_pid) 0 ::
    psiPacket pmt_pid (pmtSection video_pid stream_type) 0 ::
      transferLoop video_pid units max2 0 0

/-- The byte-level output of one `es2ts` run: `transfer_data` applied to the
ES units of the input. -/
def es2ts (video_pid pmt_pid stream_type max2 : Nat) (input : List Nat) :
    List (List Nat) :=
  transfer_data video_pid pmt_pid stream_type max2 (esUnits input)

/-! ## Stream type decision (`main`, `es2ts.cpp` lines 180–344) -/

/-- The stream classifications of `video_type`. -/
inductive VideoType
  | h262
  | h264
  | avs
  | unknown
deriving DecidableEq

/-- `MPEG2_VIDEO_STREAM_TYPE` of `h222.h`. -/
def MPEG2_VIDEO_STREAM_TYPE : Nat := 0x02

/-- `AVC_VIDEO_STREAM_TYPE` of `h222.h`. -/
def AVC_VIDEO_STREAM_TYPE : Nat := 0x1B

/-- `AVS_VIDEO_STREAM_TYPE` of `h222.h`. -/
def AVS_VIDEO_STREAM_TYPE : Nat := 0x42

/-- The `switch (video_type)` of `main` (lines 322–344): the PMT stream type
byte for each classification; `VIDEO_UNKNOWN` has none (the program exits
with status 1 instead). -/
def streamTypeOf : VideoType → Option Nat
  | .h262 => some MPEG2_VIDEO_STREAM_TYPE
  | .h264 => some AVC_VIDEO_STREAM_TYPE
  | .avs => some AVS_VIDEO_STREAM_TYPE
  | .unknown => none

/-- The command-line switches that select a stream type. -/
inductive TypeFlag
  | fh264
  | favc
  | fh262
  | favs
deriving DecidableEq

/-- Effect of one type switch on `(force_stream_type, video_type)`
(`main`, lines 195–203): each switch sets the force flag and overwrites the
type; a later switch wins. -/
def applyTypeFlag : Bool × VideoType → TypeFlag → Bool × VideoType
  | _, .fh264 => (true, .h264)
  | _, .favc => (true, .h264)
  | _, .fh262 => (true, .h262)
  | _, .favs => (true, .avs)

/-- Folding the type switches over the initial state
`force_stream_type = false`, `video_type = VIDEO_H262` (line 180). -/
def parseTypeFlags (flags : List TypeFlag) : Bool × VideoType :=
  flags.foldl applyTypeFlag (false, VideoType.h262)

/-- The stream-type decision of `main` (lines 307–320): when a type was
forced or input is standard input, the flag-selected (or default) type is
used and no detection runs; otherwise the detector's verdict is used.
`detected` stands for the result of `decide_ES_file_video_type`, which is
not in the snapshot. -/
def effectiveVideoType (flags : List TypeFlag) (use_stdin : Bool)
    (detected : VideoType) : VideoType :=
  let fv := parseTypeFlags flags
  if fv.1 || use_stdin then fv.2 else detected

/-- `main` from the stream-type decision onward: an unknown classification
exits with status 1 before the output sink is opened and before any TS byte
is produced; otherwise the pipeline runs and its packets are the output. -/
def es2tsMain (flags : List TypeFlag) (use_stdin : Bool) (detected : VideoType)
    (video_pid pmt_pid max2 : Nat) (input : List Nat) :
    Except Nat (List (List Nat)) :=
  match streamTypeOf (effectiveVideoType flags use_stdin detected) with
  | none => .error 1
  | some st => .ok (es2ts video_pid pmt_pid st max2 input)

/-! ## TS packet reading (the receiver view used by the claims) -/

/-- PID of a TS packet: five low bits of byte 1, then byte 2. -/
def tsPID (p : List Nat) : Nat :=
  p.getD 1 0 % 32 * 256 + p.getD 2 0

/-- Payload-unit-start indicator of a TS packet: bit 6 of byte 1. -/
def tsPUSI (p : List Nat) : Bool :=
  p.getD 1 0 / 64 % 2 == 1

/-- Adaptation-field control of a TS packet: bits 4–5 of byte 3. -/
def tsAFC (p : List Nat) : Nat :=
  p.getD 3 0 / 16 % 4

/-- Payload of a TS packet after stripping the four header bytes and, when
control signals an adaptation field, the field and its length byte. -/
def tsPayload (p : List Nat) : List Nat :=
  if tsAFC p = 3 then p.drop (5 + p.getD 4 0)
  else if tsAFC p = 1 then p.drop 4
  else []

/-- Group a run of TS packets into PES packets: a new group starts at each
packet with PUSI set.  `fuel` bounds recursion depth; the list length is
always enough. -/
def groupByPUSIF : Nat → List (List Nat) → List (List (List Nat))
  | 0, _ => []
  | _ + 1, [] => []
  | fuel + 1, p :: rest =>
    (p :: rest.takeWhile fun q => !tsPUSI q) ::
      groupByPUSIF fuel (rest.dropWhile fun q => !tsPUSI q)

/-- PES grouping of a packet run. -/
def groupByPUSI (l : List (List Nat)) : List (List (List Nat)) :=
  groupByPUSIF l.length l

/-- The receiver-side reassembly named by the round-trip property: keep the
TS packets of `pid`, strip TS headers and adaptation fields, reassemble the
PES packets at PUSI boundaries, strip the nine PES header bytes of each, and
concatenate. -/
def extractVideoES (pid : Nat) (pkts : List (List Nat)) : List Nat :=
  ((groupByPUSI (pkts.filter fun p => tsPID p == pid)).map
      fun g => ((g.map tsPayload).flatten).drop 9).flatten

/-- Number of PES packets in a packet run: one per packet with PUSI set. -/
def pesCount (pkts : List (List Nat)) : Nat :=
  (pkts.filter fun p => tsPUSI p).length

/-! ## The printing function table (`printing.h`) -/

/-- `struct print_fns` of `printing.h`: the five installed printing
functions.  The three function-pointer signatures are abstracted by the
type parameters. -/
structure print_fns (α β γ : Type) where
  print_message_fn : α
  print_error_fn : α
  fprint_message_fn : β
  fprint_error_fn : β
  flush_message_fn : γ
deriving DecidableEq

/-- `redirect_output` of `printing.h` (lines 226–248): candidate function
pointers are `Option` values, `none` standing for a null pointer.  If any of
the five is null the call returns 1 and installs nothing; otherwise it
installs all five and returns 0.  The result pairs the return code with the
table after the call. -/
def redirect_output {α β γ : Type} (fns : print_fns α β γ)
    (new_print_message_fn new_print_error_fn : Option α)
    (new_fprint_message_fn new_fprint_error_fn : Option β)
    (new_flush_msg_fn : Option γ) : Nat × print_fns α β γ :=
  match new_print_message_fn, new_print_error_fn, new_fprint_message_fn,
      new_fprint_error_fn, new_flush_msg_fn with
  | some pm, some pe, some fm, some fe, some fl => (0, ⟨pm, pe, fm, fe, fl⟩)
  | _, _, _, _, _ => (1, fns)

/-- A small two-unit H.262-style ES input used by the concrete witnesses. -/
def demoES : List Nat :=
  [0x00, 0x00, 0x01, 0xB3, 0x12, 0x34, 0x56, 0x78,
   0x00, 0x00, 0x01, 0x00, 0x0A, 0x0B, 0x0C, 0x0D, 0x0E]

/-! ## Lemmas: unit decomposition -/

theorem flatten_unitsFromF : ∀ (fuel : Nat) (s : List Nat), s.length ≤ fuel →
    wfTailF fuel s = true → (unitsFromF fuel s).flatten = s := by
  intro fuel
  induction fuel with
  | zero =>
    intro s _ hwf
    simp only [wfTailF, List.isEmpty_iff] at hwf
    simp [unitsFromF, hwf]
  | succ fuel ih =>
    intro s hl hwf
    rw [wfTailF] at hwf
    rw [unitsFromF]
    by_cases h4 : s.length < 4
    · rw [if_pos h4] at hwf
      simp only [List.isEmpty_iff] at hwf
      simp [h4, hwf]
    · rw [if_neg h4] at hwf
      rw [if_neg h4]
      cases hj : findSC (s.drop 4) with
      | none => simp
      | some j =>
        rw [hj] at hwf
        simp only [List.flatten_cons]
        rw [ih (s.drop (4 + j)) (by simp [List.length_drop]; omega) hwf]
        exact List.take_append_drop _ s

/-! ## Lemmas: 184-byte chunking -/

theorem chunk184F_flatten : ∀ (fuel : Nat) (l : List Nat), l.length ≤ fuel →
    (chunk184F fuel l).flatten = l := by
  intro fuel
  induction fuel with
  | zero =>
    intro l hl
    have : l = [] := List.length_eq_zero.mp (Nat.le_zero.mp hl)
    subst this
    simp [chunk184F]
  | succ fuel ih =>
    intro l hl
    rw [chunk184F]
    by_cases h0 : l.length = 0
    · rw [if_pos h0]
      simp [List.length_eq_zero.mp h0]
    · rw [if_neg h0]
      by_cases h184 : 184 ≤ l.length
      · rw [if_pos h184]
        simp only [List.flatten_cons]
        rw [ih (l.drop 184) (by simp [List.length_drop]; omega)]
        exact List.take_append_drop _ l
      · rw [if_neg h184]
        simp

theorem chunk184F_mem : ∀ (fuel : Nat) (l c : List Nat), l.length ≤ fuel →
    c ∈ chunk184F fuel l → 1 ≤ c.length ∧ c.length ≤ 184 := by
  intro fuel
  induction fuel with
  | zero => intro l c _ hc; simp [chunk184F] at hc
  | succ fuel ih =>
    intro l c hl hc
    rw [chunk184F] at hc
    by_cases h0 : l.length = 0
    · rw [if_pos h0] at hc; simp at hc
    · rw [if_neg h0] at hc
      by_cases h184 : 184 ≤ l.length
      · rw [if_pos h184] at hc
        rcases List.mem_cons.mp hc with h | h
        · subst h
          rw [List.length_take]
          omega
        · exact ih (l.drop 184) c (by simp [List.length_drop]; omega) h
      · rw [if_neg h184] at hc
        simp at hc
        subst hc
        omega

theorem chunk184F_ne_nil : ∀ (fuel : Nat) (l : List Nat), l.length ≤ fuel →
    l ≠ [] → chunk184F fuel l ≠ [] := by
  intro fuel
  cases fuel with
  | zero =>
    intro l hl hne
    exact absurd (List.length_eq_zero.mp (Nat.le_zero.mp hl)) hne
  | succ fuel =>
    intro l hl hne
    rw [chunk184F]
    have h0 : ¬ l.length = 0 := by simp [List.length_eq_zero]; exact hne
    rw [if_neg h0]
    by_cases h184 : 184 ≤ l.length
    · rw [if_pos h184]; simp
    · rw [if_neg h184]; simp

/-! ## Lemmas: reading back a written TS packet -/

theorem adaptStuffing_length (n : Nat) (h : 1 ≤ n) : (adaptStuffing n).length = n := by
  rw [adaptStuffing]
  by_cases hn : n ≤ 1
  · rw [if_pos hn]; simp; omega
  · rw [if_neg hn]; simp [List.length_replicate]; omega

theorem tsPID_header (pid : Nat) (pusi : Bool) (afc cc : Nat) (rest : List Nat)
    (h : pid < 8192) : tsPID (tsHeader pid pusi afc cc ++ rest) = pid := by
  cases pusi <;> simp [tsPID, tsHeader, List.getD] <;> omega

theorem tsPUSI_header (pid : Nat) (pusi : Bool) (afc cc : Nat) (rest : List Nat) :
    tsPUSI (tsHeader pid pusi afc cc ++ rest) = pusi := by
  cases pusi <;> simp [tsPUSI, tsHeader, List.getD] <;> omega

theorem tsAFC_header (pid : Nat) (pusi : Bool) (afc cc : Nat) (rest : List Nat)
    (h : afc < 4) : tsAFC (tsHeader pid pusi afc cc ++ rest) = afc := by
  simp [tsAFC, tsHeader, List.getD]
  omega

theorem tsPayload_mkTsPacket (pid : Nat) (pusi : Bool) (cc : Nat) (chunk : List Nat)
    (h1 : 1 ≤ chunk.length) (h2 : chunk.length ≤ 184) :
    tsPayload (mkTsPacket pid pusi cc chunk) = chunk := by
  rw [mkTsPacket]
  by_cases he : chunk.length = 184
  · rw [if_pos he, tsPayload]
    rw [tsAFC_header pid pusi 1 cc chunk (by omega)]
    simp [tsHeader]
  · rw [if_neg he, tsPayload, List.append_assoc]
    rw [tsAFC_header pid pusi 3 cc _ (by omega)]
    rw [if_pos rfl]
    have hn1 : 1 ≤ 184 - chunk.length := by omega
    have hget : (tsHeader pid pusi 3 cc ++ (adaptStuffing (184 - chunk.length) ++ chunk)).getD 4 0
        = 184 - chunk.length - 1 := by
      rw [adaptStuffing]
      by_cases hn : 184 - chunk.length ≤ 1
      · rw [if_pos hn]
        simp [tsHeader, List.getD]
        omega
      · rw [if_neg hn]
        simp [tsHeader, List.getD]
    rw [hget]
    have h5 : 5 + (184 - chunk.length - 1) = 4 + (184 - chunk.length) := by omega
    rw [h5, ← List.append_assoc]
    refine List.drop_left' ?_
    simp [tsHeader, adaptStuffing_length _ hn1]
    omega

theorem tsPID_mkTsPacket (pid : Nat) (pusi : Bool) (cc : Nat) (chunk : List Nat)
    (h : pid < 8192) : tsPID (mkTsPacket pid pusi cc chunk) = pid := by
  rw [mkTsPacket]
  split
  · exact tsPID_header pid pusi 1 cc chunk h
  · rw [List.append_assoc]
    exact tsPID_header pid pusi 3 cc _ h

theorem tsPUSI_mkTsPacket (pid : Nat) (pusi : Bool) (cc : Nat) (chunk : List Nat) :
    tsPUSI (mkTsPacket pid pusi cc chunk) = pusi := by
  rw [mkTsPacket]
  split
  · exact tsPUSI_header pid pusi 1 cc chunk
  · rw [List.append_assoc]
    exact tsPUSI_header pid pusi 3 cc _

/-! ## Lemmas: packetizing one PES packet -/

theorem tsPacketsAux_payload (pid : Nat) :
    ∀ (chunks : List (List Nat)) (pusi : Bool) (cc : Nat),
    (∀ c ∈ chunks, 1 ≤ c.length ∧ c.length ≤ 184) →
    ((tsPacketsAux pid chunks pusi cc).map tsPayload).flatten = chunks.flatten := by
  intro chunks
  induction chunks with
  | nil => intro pusi cc _; simp [tsPacketsAux]
  | cons c rest ih =>
    intro pusi cc h
    simp only [tsPacketsAux, List.map_cons, List.flatten_cons]
    rw [tsPayload_mkTsPacket pid pusi cc c (h c (by simp)).1 (h c (by simp)).2]
    rw [ih false (cc + 1) (fun x hx => h x (by simp [hx]))]

theorem tsPacketsAux_pid (pid : Nat) (h : pid < 8192) :
    ∀ (chunks : List (List Nat)) (pusi : Bool) (cc : Nat),
    ∀ p ∈ tsPacketsAux pid chunks pusi cc, tsPID p = pid := by
  intro chunks
  induction chunks with
  | nil => intro pusi cc p hp; simp [tsPacketsAux] at hp
  | cons c rest ih =>
    intro pusi cc p hp
    rcases List.mem_cons.mp hp with hh | hh
    · subst hh; exact tsPID_mkTsPacket pid pusi cc c h
    · exact ih false (cc + 1) p hh

theorem tsPacketsAux_pusi_false (pid : Nat) :
    ∀ (chunks : List (List Nat)) (cc : Nat),
    ∀ p ∈ tsPacketsAux pid chunks false cc, tsPUSI p = false := by
  intro chunks
  induction chunks with
  | nil => intro cc p hp; simp [tsPacketsAux] at hp
  | cons c rest ih =>
    intro cc p hp
    rcases List.mem_cons.mp hp with hh | hh
    · subst hh; exact tsPUSI_mkTsPacket pid false cc c
    · exact ih (cc + 1) p hh

theorem pesPack_ne_nil (u : List Nat) : pesPack u ≠ [] := by
  simp [pesPack]

theorem pesPack_drop (u : List Nat) : (pesPack u).drop 9 = u := by
  rw [pesPack]
  exact List.drop_left' (by simp)

theorem tsPackets_payload (pid : Nat) (pes : List Nat) (cc : Nat) :
    ((tsPackets pid pes cc).map tsPayload).flatten = pes := by
  rw [tsPackets]
  rw [tsPacketsAux_payload pid (chunk184 pes) true cc
      (fun c hc => chunk184F_mem pes.length pes c (Nat.le_refl _) hc)]
  exact chunk184F_flatten pes.length pes (Nat.le_refl _)

theorem tsPackets_structure (pid : Nat) (pes : List Nat) (cc : Nat) (h : pes ≠ []) :
    ∃ hd tl, tsPackets pid pes cc = hd :: tl ∧ tsPUSI hd = true ∧
      ∀ p ∈ tl, tsPUSI p = false := by
  have hne : chunk184 pes ≠ [] := chunk184F_ne_nil pes.length pes (Nat.le_refl _) h
  obtain ⟨c, cs, hc⟩ := List.exists_cons_of_ne_nil hne
  refine ⟨mkTsPacket pid true cc c, tsPacketsAux pid cs false (cc + 1), ?_, ?_, ?_⟩
  · rw [tsPackets, hc]; rfl
  · exact tsPUSI_mkTsPacket pid true cc c
  · exact tsPacketsAux_pusi_false pid cs (cc + 1)

/-! ## Lemmas: the per-unit packet runs -/

theorem unitBlocks_payload (pid : Nat) : ∀ (units : List (List Nat)) (cc : Nat),
    (unitBlocks pid units cc).map (fun b => (b.map tsPayload).flatten)
      = units.map pesPack := by
  intro units
  induction units with
  | nil => intro cc; simp [unitBlocks]
  | cons u rest ih =>
    intro cc
    simp only [unitBlocks, List.map_cons]
    rw [tsPackets_payload, ih]

theorem unitBlocks_structure (pid : Nat) : ∀ (units : List (List Nat)) (cc : Nat),
    ∀ b ∈ unitBlocks pid units cc, ∃ hd tl, b = hd :: tl ∧ tsPUSI hd = true ∧
      ∀ p ∈ tl, tsPUSI p = false := by
  intro units
  induction units with
  | nil => intro cc b hb; simp [unitBlocks] at hb
  | cons u rest ih =>
    intro cc b hb
    rcases List.mem_cons.mp hb with hh | hh
    · subst hh
      exact tsPackets_structure pid (pesPack u) cc (pesPack_ne_nil u)
    · exact ih _ b hh

theorem unitBlocks_pid (pid : Nat) (h : pid < 8192) :
    ∀ (units : List (List Nat)) (cc : Nat),
    ∀ p ∈ (unitBlocks pid units cc).flatten, tsPID p = pid := by
  intro units
  induction units with
  | nil => intro cc p hp; simp [unitBlocks] at hp
  | cons u rest ih =>
    intro cc p hp
    simp only [unitBlocks, List.flatten_cons, List.mem_append] at hp
    rcases hp with hh | hh
    · exact tsPacketsAux_pid pid h _ true cc p hh
    · exact ih _ p hh

/-! ## Lemmas: PES grouping at PUSI boundaries -/

theorem takeWhile_append_all {α : Type} (p : α → Bool) :
    ∀ (l1 l2 : List α), (∀ x ∈ l1, p x = true) →
    (l1 ++ l2).takeWhile p = l1 ++ l2.takeWhile p := by
  intro l1
  induction l1 with
  | nil => intro l2 _; simp
  | cons a l ih =>
    intro l2 h
    simp only [List.cons_append, List.takeWhile_cons]
    rw [h a (by simp), ih l2 (fun x hx => h x (by simp [hx]))]
    simp

theorem dropWhile_append_all {α : Type} (p : α → Bool) :
    ∀ (l1 l2 : List α), (∀ x ∈ l1, p x = true) →
    (l1 ++ l2).dropWhile p = l2.dropWhile p := by
  intro l1
  induction l1 with
  | nil => intro l2 _; simp
  | cons a l ih =>
    intro l2 h
    simp only [List.cons_append, List.dropWhile_cons]
    rw [h a (by simp), ih l2 (fun x hx => h x (by simp [hx]))]
    simp

theorem pusi_flatten_head (L : List (List (List Nat)))
    (h : ∀ b ∈ L, ∃ hd tl, b = hd :: tl ∧ tsPUSI hd = true ∧
      ∀ p ∈ tl, tsPUSI p = false) :
    (L.flatten.takeWhile fun q => !tsPUSI q) = [] ∧
    (L.flatten.dropWhile fun q => !tsPUSI q) = L.flatten := by
  cases L with
  | nil => simp
  | cons b L' =>
    obtain ⟨hd, tl, rfl, hhd, _⟩ := h b (by simp)
    simp [List.takeWhile_cons, List.dropWhile_cons, hhd]

theorem groupByPUSIF_flatten :
    ∀ (L : List (List (List Nat))) (fuel : Nat),
    L.flatten.length ≤ fuel →
    (∀ b ∈ L, ∃ hd tl, b = hd :: tl ∧ tsPUSI hd = true ∧
      ∀ p ∈ tl, tsPUSI p = false) →
    groupByPUSIF fuel L.flatten = L := by
  intro L
  induction L with
  | nil =>
    intro fuel _ _
    cases fuel <;> simp [groupByPUSIF]
  | cons b L' ih =>
    intro fuel h1 h2
    obtain ⟨hd, tl, rfl, _, htl⟩ := h2 b (by simp)
    simp only [List.flatten_cons, List.cons_append] at h1 ⊢
    cases fuel with
    | zero => simp at h1
    | succ fuel =>
      rw [groupByPUSIF]
      have hrec := fun b hb => h2 b (List.mem_cons_of_mem _ hb)
      have hrest := pusi_flatten_head L' hrec
      have htke : ((tl ++ L'.flatten).takeWhile fun q => !tsPUSI q) = tl := by
        rw [takeWhile_append_all _ tl L'.flatten (fun x hx => by simp [htl x hx])]
        rw [hrest.1, List.append_nil]
      have hdrp : ((tl ++ L'.flatten).dropWhile fun q => !tsPUSI q) = L'.flatten := by
        rw [dropWhile_append_all _ tl L'.flatten (fun x hx => by simp [htl x hx])]
        exact hrest.2
      rw [htke, hdrp]
      rw [ih fuel (by simp [List.length_append] at h1 ⊢; omega) hrec]

/-! ## Lemmas: the transfer loop -/

theorem transferLoop_zero (pid : Nat) : ∀ (units : List (List Nat)) (count cc : Nat),
    transferLoop pid units 0 count cc = (unitBlocks pid units cc).flatten := by
  intro units
  induction units with
  | nil => intro count cc; simp [transferLoop, unitBlocks]
  | cons u rest ih =>
    intro count cc
    rw [transferLoop]
    rw [if_neg (by omega)]
    simp only [unitBlocks, List.flatten_cons]
    rw [ih]

theorem transferLoop_take (pid : Nat) : ∀ (units : List (List Nat)) (max2 count cc : Nat),
    count < max2 →
    transferLoop pid units max2 count cc
      = (unitBlocks pid (units.take (max2 - count)) cc).flatten := by
  intro units
  induction units with
  | nil => intro max2 count cc _; simp [transferLoop, unitBlocks]
  | cons u rest ih =>
    intro max2 count cc h
    rw [transferLoop]
    by_cases hstop : 0 < max2 ∧ max2 ≤ count + 1
    · rw [if_pos hstop]
      have h1 : max2 - count = 1 := by omega
      rw [h1]
      simp [unitBlocks]
    · rw [if_neg hstop]
      have hc : count + 1 < max2 := by omega
      rw [ih max2 (count + 1) _ hc]
      have h1 : max2 - count = (max2 - (count + 1)) + 1 := by omega
      rw [h1, List.take_succ_cons]
      simp only [unitBlocks, List.flatten_cons]

/-! ## Lemmas: counting PES packets -/

theorem pesCount_append (a b : List (List Nat)) :
    pesCount (a ++ b) = pesCount a + pesCount b := by
  simp [pesCount, List.filter_append]

theorem pesCount_tsPackets (pid : Nat) (pes : List Nat) (cc : Nat) (h : pes ≠ []) :
    pesCount (tsPackets pid pes cc) = 1 := by
  obtain ⟨hd, tl, heq, hhd, htl⟩ := tsPackets_structure pid pes cc h
  rw [heq]
  simp only [pesCount, List.filter_cons, hhd]
  have : tl.filter (fun p => tsPUSI p) = [] := by
    rw [List.filter_eq_nil_iff]
    intro p hp
    simp [htl p hp]
  simp [this]

theorem pesCount_unitBlocks (pid : Nat) : ∀ (units : List (List Nat)) (cc : Nat),
    pesCount (unitBlocks pid units cc).flatten = units.length := by
  intro units
  induction units with
  | nil => intro cc; simp [pesCount, unitBlocks]
  | cons u rest ih =>
    intro cc
    simp only [unitBlocks, List.flatten_cons]
    rw [pesCount_append, pesCount_tsPackets pid _ _ (pesPack_ne_nil u), ih]
    simp [List.length_cons]
    omega

/-! ## Lemmas: PSI packets -/

theorem psiPacket_pid (pid : Nat) (sec : List Nat) (cc : Nat) (h : pid < 8192) :
    tsPID (psiPacket pid sec cc) = pid :=
  tsPID_header pid true 1 cc _ h

theorem psiPacket_pusi (pid : Nat) (sec : List Nat) (cc : Nat) :
    tsPUSI (psiPacket pid sec cc) = true :=
  tsPUSI_header pid true 1 cc _

theorem patSection_length (pmt_pid : Nat) : (patSection pmt_pid).length = 16 := by
  simp [patSection, crcBytes]

theorem pmtSection_length (video_pid stream_type : Nat) :
    (pmtSection video_pid stream_type).length = 21 := by
  simp [pmtSection, crcBytes]

theorem psiPacket_length (pid : Nat) (sec : List Nat) (cc : Nat)
    (h : sec.length ≤ 183) : (psiPacket pid sec cc).length = 188 := by
  simp [psiPacket, tsHeader, List.length_replicate]
  omega

theorem pmtPacket_streamType (pmt_pid video_pid stream_type cc : Nat) :
    (psiPacket pmt_pid (pmtSection video_pid stream_type) cc).getD 17 0
      = stream_type := rfl

/-! ## Claim theorems -/

/-- C1: for every valid ES input (one that contains a startcode and does not
end in a truncated one), keeping the emitted TS packets of `video_pid`,
stripping their TS headers and adaptation fields, concatenating the payloads,
and stripping the PES headers of the resulting PES packets reproduces the
original ES byte sequence from the first startcode onward. -/
theorem es2ts_roundtrip (video_pid pmt_pid stream_type : Nat) (input : List Nat)
    (i : Nat) (hvp : video_pid < 8192) (hpp : pmt_pid < 8192)
    (hvp0 : video_pid ≠ 0) (hne : video_pid ≠ pmt_pid)
    (hfind : findSC input = some i) (hwf : wfTail (input.drop i) = true) :
    extractVideoES video_pid (es2ts video_pid pmt_pid stream_type 0 input)
      = input.drop i := by
  have hunits : esUnits input = unitsFrom (input.drop i) := by
    rw [esUnits, hfind]
  rw [es2ts, transfer_data, transferLoop_zero, extractVideoES]
  have hpat : (tsPID (psiPacket 0 (patSection pmt_pid) 0) == video_pid) = false := by
    rw [psiPacket_pid 0 _ 0 (by norm_num)]
    simp only [beq_eq_false_iff_ne]
    exact Ne.symm hvp0
  have hpmt : (tsPID (psiPacket pmt_pid (pmtSection video_pid stream_type) 0)
      == video_pid) = false := by
    rw [psiPacket_pid pmt_pid _ 0 hpp]
    simp only [beq_eq_false_iff_ne]
    exact Ne.symm hne
  have hvid : ∀ p ∈ (unitBlocks video_pid (esUnits input) 0).flatten,
      (fun p => tsPID p == video_pid) p = true := by
    intro p hp
    simp only [beq_iff_eq]
    exact unitBlocks_pid video_pid hvp _ _ p hp
  rw [List.filter_cons, List.filter_cons, hpat, hpmt]
  simp only [Bool.false_eq_true, if_false]
  rw [List.filter_eq_self.mpr hvid]
  rw [groupByPUSI]
  rw [groupByPUSIF_flatten (unitBlocks video_pid (esUnits input) 0) _ (Nat.le_refl _)
      (unitBlocks_structure video_pid (esUnits input) 0)]
  have hmap : ((unitBlocks video_pid (esUnits input) 0).map
        fun g => ((g.map tsPayload).flatten).drop 9)
      = (esUnits input).map (fun u => (pesPack u).drop 9) := by
    calc ((unitBlocks video_pid (esUnits input) 0).map
          fun g => ((g.map tsPayload).flatten).drop 9)
        = (((unitBlocks video_pid (esUnits input) 0).map
            fun b => (b.map tsPayload).flatten).map fun l => l.drop 9) := by
          rw [List.map_map]; rfl
      _ = ((esUnits input).map pesPack).map (fun l => l.drop 9) := by
          rw [unitBlocks_payload]
      _ = (esUnits input).map (fun u => (pesPack u).drop 9) := by
          rw [List.map_map]; rfl
  rw [hmap]
  have hid : (esUnits input).map (fun u => (pesPack u).drop 9) = esUnits input := by
    simp [pesPack_drop]
  rw [hid, hunits, unitsFrom]
  exact flatten_unitsFromF _ _ (Nat.le_refl _) hwf

/-- Witness for the round-trip claim at a concrete two-unit input. -/
theorem es2ts_roundtrip_witness :
    extractVideoES 0x68 (es2ts 0x68 0x66 MPEG2_VIDEO_STREAM_TYPE 0 demoES)
      = demoES.drop 0 :=
  es2ts_roundtrip 0x68 0x66 MPEG2_VIDEO_STREAM_TYPE demoES 0 (by decide) (by decide)
    (by decide) (by decide) (by decide) (by decide)

theorem es2tsMain_ok (flags : List TypeFlag) (use_stdin : Bool)
    (detected : VideoType) (video_pid pmt_pid max2 : Nat) (input : List Nat)
    (st : Nat)
    (hst : streamTypeOf (effectiveVideoType flags use_stdin detected) = some st) :
    es2tsMain flags use_stdin detected video_pid pmt_pid max2 input
      = .ok (es2ts video_pid pmt_pid st max2 input) := by
  unfold es2tsMain
  rw [hst]

/-- C2: the first TS packet emitted is the PAT on PID 0 and the second the
PMT on `pmt_pid`, both with PUSI set, before any video unit; every packet
after those two carries the video PID (no PSI is interleaved later); and the
PES packets reassembled from the video packets are the PES encodings of the
ES units in reading order. -/
theorem es2ts_psi_then_ordered_video (video_pid pmt_pid stream_type max2 : Nat)
    (input : List Nat) (hvp : video_pid < 8192) (hpp : pmt_pid < 8192) :
    (es2ts video_pid pmt_pid stream_type max2 input).take 2
        = [psiPacket 0 (patSection pmt_pid) 0,
           psiPacket pmt_pid (pmtSection video_pid stream_type) 0]
    ∧ tsPID (psiPacket 0 (patSection pmt_pid) 0) = 0
    ∧ tsPUSI (psiPacket 0 (patSection pmt_pid) 0) = true
    ∧ tsPID (psiPacket pmt_pid (pmtSection video_pid stream_type) 0) = pmt_pid
    ∧ tsPUSI (psiPacket pmt_pid (pmtSection video_pid stream_type) 0) = true
    ∧ (∀ p ∈ (es2ts video_pid pmt_pid stream_type max2 input).drop 2,
        tsPID p = video_pid)
    ∧ (groupByPUSI ((es2ts video_pid pmt_pid stream_type max2 input).drop 2)).map
          (fun g => (g.map tsPayload).flatten)
        = (if 0 < max2 then (esUnits input).take max2 else esUnits input).map
            pesPack := by
  have hdrop : (es2ts video_pid pmt_pid stream_type max2 input).drop 2
      = (unitBlocks video_pid
          (if 0 < max2 then (esUnits input).take max2 else esUnits input)
          0).flatten := by
    rw [es2ts, transfer_data]
    simp only [List.drop_succ_cons, List.drop_zero]
    by_cases hm : 0 < max2
    · rw [if_pos hm, transferLoop_take video_pid _ max2 0 0 hm, Nat.sub_zero]
    · rw [if_neg hm]
      have h0 : max2 = 0 := by omega
      subst h0
      exact transferLoop_zero video_pid _ 0 0
  refine ⟨?_, psiPacket_pid 0 _ 0 (by norm_num), psiPacket_pusi _ _ _,
      psiPacket_pid pmt_pid _ 0 hpp, psiPacket_pusi _ _ _, ?_, ?_⟩
  · rw [es2ts, transfer_data]
    rfl
  · rw [hdrop]
    intro p hp
    exact unitBlocks_pid video_pid hvp _ _ p hp
  · rw [hdrop, groupByPUSI, groupByPUSIF_flatten _ _ (Nat.le_refl _)
        (unitBlocks_structure video_pid _ 0)]
    exact unitBlocks_payload video_pid _ 0

/-- Witness for the PSI-first/ordering claim at a concrete input with the
cap set to one unit. -/
theorem es2ts_psi_then_ordered_video_witness :
    (es2ts 0x68 0x66 MPEG2_VIDEO_STREAM_TYPE 1 demoES).take 2
        = [psiPacket 0 (patSection 0x66) 0,
           psiPacket 0x66 (pmtSection 0x68 MPEG2_VIDEO_STREAM_TYPE) 0]
    ∧ tsPID (psiPacket 0 (patSection 0x66) 0) = 0
    ∧ tsPUSI (psiPacket 0 (patSection 0x66) 0) = true
    ∧ tsPID (psiPacket 0x66 (pmtSection 0x68 MPEG2_VIDEO_STREAM_TYPE) 0) = 0x66
    ∧ tsPUSI (psiPacket 0x66 (pmtSection 0x68 MPEG2_VIDEO_STREAM_TYPE) 0) = true
    ∧ (∀ p ∈ (es2ts 0x68 0x66 MPEG2_VIDEO_STREAM_TYPE 1 demoES).drop 2,
        tsPID p = 0x68)
    ∧ (groupByPUSI ((es2ts 0x68 0x66 MPEG2_VIDEO_STREAM_TYPE 1 demoES).drop 2)).map
          (fun g => (g.map tsPayload).flatten)
        = (if 0 < 1 then (esUnits demoES).take 1 else esUnits demoES).map
            pesPack :=
  es2ts_psi_then_ordered_video 0x68 0x66 MPEG2_VIDEO_STREAM_TYPE 1 demoES
    (by decide) (by decide)

/-- C3: the stream type byte written into the PMT is the byte for the
classification in force — `0x02` for H.262, `0x1B` for H.264, `0x42` for AVS
via `streamTypeOf` — and when a forcing switch such as `-h264` is given the
forced type wins and detection is ignored, so any input that would detect as
H.262 still yields PMT stream type `0x1B`. -/
theorem es2ts_pmt_stream_type (flags : List TypeFlag) (use_stdin : Bool)
    (detected : VideoType) (video_pid pmt_pid max2 : Nat) (input : List Nat)
    (st : Nat)
    (hst : streamTypeOf (effectiveVideoType flags use_stdin detected) = some st) :
    (es2tsMain flags use_stdin detected video_pid pmt_pid max2 input
        = .ok (es2ts video_pid pmt_pid st max2 input)
      ∧ ((es2ts video_pid pmt_pid st max2 input).getD 1 []).getD 17 0 = st)
    ∧ ∀ (d : VideoType) (vp2 pp2 m2 : Nat) (inp2 : List Nat),
        es2tsMain [TypeFlag.fh264] false d vp2 pp2 m2 inp2
          = .ok (es2ts vp2 pp2 AVC_VIDEO_STREAM_TYPE m2 inp2)
        ∧ ((es2ts vp2 pp2 AVC_VIDEO_STREAM_TYPE m2 inp2).getD 1 []).getD 17 0
            = AVC_VIDEO_STREAM_TYPE := by
  constructor
  · refine ⟨es2tsMain_ok flags use_stdin detected video_pid pmt_pid max2 input st hst, ?_⟩
    rw [es2ts, transfer_data]
    simpa using pmtPacket_streamType pmt_pid video_pid st 0
  · intro d vp2 pp2 m2 inp2
    refine ⟨es2tsMain_ok [TypeFlag.fh264] false d vp2 pp2 m2 inp2
        AVC_VIDEO_STREAM_TYPE rfl, ?_⟩
    rw [es2ts, transfer_data]
    simpa using pmtPacket_streamType pp2 vp2 AVC_VIDEO_STREAM_TYPE 0

/-- Witness for the stream-type claim: forced `-h264` over an H.262-detected
input. -/
theorem es2ts_pmt_stream_type_witness :
    (es2tsMain [TypeFlag.fh264] false VideoType.h262 0x68 0x66 0 demoES
        = .ok (es2ts 0x68 0x66 AVC_VIDEO_STREAM_TYPE 0 demoES)
      ∧ ((es2ts 0x68 0x66 AVC_VIDEO_STREAM_TYPE 0 demoES).getD 1 []).getD 17 0
          = AVC_VIDEO_STREAM_TYPE)
    ∧ es2tsMain [TypeFlag.fh264] false VideoType.h262 0x68 0x66 0 demoES
        = .ok (es2ts 0x68 0x66 AVC_VIDEO_STREAM_TYPE 0 demoES)
    ∧ ((es2ts 0x68 0x66 AVC_VIDEO_STREAM_TYPE 0 demoES).getD 1 []).getD 17 0
        = AVC_VIDEO_STREAM_TYPE :=
  ⟨(es2ts_pmt_stream_type [TypeFlag.fh264] false VideoType.h262 0x68 0x66 0 demoES
      AVC_VIDEO_STREAM_TYPE (by decide)).1,
   (es2ts_pmt_stream_type [TypeFlag.fh264] false VideoType.h262 0x68 0x66 0 demoES
      AVC_VIDEO_STREAM_TYPE (by decide)).2 VideoType.h262 0x68 0x66 0 demoES⟩

/-- C4: with a positive cap `max2` and at least that many ES units in the
input, exactly `max2` PES packets of video follow the PAT and PMT and the
loop stops cleanly; with the cap at 0 every unit is emitted until EOF. -/
theorem es2ts_max_units_cap (video_pid pmt_pid stream_type : Nat)
    (input : List Nat) :
    (∀ max2 : Nat, 0 < max2 → max2 ≤ (esUnits input).length →
      pesCount ((es2ts video_pid pmt_pid stream_type max2 input).drop 2) = max2)
    ∧ pesCount ((es2ts video_pid pmt_pid stream_type 0 input).drop 2)
        = (esUnits input).length := by
  constructor
  · intro max2 h1 h2
    rw [es2ts, transfer_data]
    simp only [List.drop_succ_cons, List.drop_zero]
    rw [transferLoop_take video_pid _ max2 0 0 h1, Nat.sub_zero]
    rw [pesCount_unitBlocks]
    simp [List.length_take]
    omega
  · rw [es2ts, transfer_data]
    simp only [List.drop_succ_cons, List.drop_zero]
    rw [transferLoop_zero, pesCount_unitBlocks]

/-- Witness for the cap claim: the two-unit input capped at one unit, and
uncapped. -/
theorem es2ts_max_units_cap_witness :
    pesCount ((es2ts 0x68 0x66 MPEG2_VIDEO_STREAM_TYPE 1 demoES).drop 2) = 1
    ∧ pesCount ((es2ts 0x68 0x66 MPEG2_VIDEO_STREAM_TYPE 0 demoES).drop 2)
        = (esUnits demoES).length :=
  ⟨(es2ts_max_units_cap 0x68 0x66 MPEG2_VIDEO_STREAM_TYPE demoES).1 1 (by decide)
      (by decide),
   (es2ts_max_units_cap 0x68 0x66 MPEG2_VIDEO_STREAM_TYPE demoES).2⟩

/-- C5: with input on standard input and no forcing switch, no detection
runs — the outcome does not depend on what a detector would have said — and
the stream is classified as H.262, so the PMT carries stream type `0x02`. -/
theorem es2ts_stdin_defaults_h262 (detected detected' : VideoType)
    (video_pid pmt_pid max2 : Nat) (input : List Nat) :
    es2tsMain [] true detected video_pid pmt_pid max2 input
      = es2tsMain [] true detected' video_pid pmt_pid max2 input
    ∧ es2tsMain [] true detected video_pid pmt_pid max2 input
      = .ok (es2ts video_pid pmt_pid MPEG2_VIDEO_STREAM_TYPE max2 input)
    ∧ ((es2ts video_pid pmt_pid MPEG2_VIDEO_STREAM_TYPE max2 input).getD 1
        []).getD 17 0 = MPEG2_VIDEO_STREAM_TYPE := by
  refine ⟨rfl, rfl, ?_⟩
  rw [es2ts, transfer_data]
  simpa using pmtPacket_streamType pmt_pid video_pid MPEG2_VIDEO_STREAM_TYPE 0

/-- C6: when detection reports `Unknown` and no forcing switch was given,
`main` exits with status 1 before the output sink is opened — no TS bytes
exist in the result. -/
theorem es2ts_unknown_type_fails (video_pid pmt_pid max2 : Nat)
    (input : List Nat) :
    es2tsMain [] false VideoType.unknown video_pid pmt_pid max2 input
      = Except.error 1 := rfl

/-- C7: on input without any ES unit the converter emits the PAT and the PMT
only — two TS packets, 376 bytes — and succeeds: the first EOF from the unit
builder ends the loop without an error. -/
theorem es2ts_empty_input (detected : VideoType) (st video_pid pmt_pid max2 : Nat)
    (input : List Nat) (hst : streamTypeOf detected = some st)
    (hsc : findSC input = none) :
    es2tsMain [] false detected video_pid pmt_pid max2 input
      = .ok [psiPacket 0 (patSection pmt_pid) 0,
             psiPacket pmt_pid (pmtSection video_pid st) 0]
    ∧ ([psiPacket 0 (patSection pmt_pid) 0,
        psiPacket pmt_pid (pmtSection video_pid st) 0].flatten).length = 376 := by
  constructor
  · have hu : esUnits input = [] := by rw [esUnits, hsc]
    rw [es2tsMain_ok [] false detected video_pid pmt_pid max2 input st hst]
    rw [es2ts, transfer_data, hu]
    rfl
  · have h1 : (psiPacket 0 (patSection pmt_pid) 0).length = 188 :=
      psiPacket_length _ _ _ (by simp [patSection_length])
    have h2 : (psiPacket pmt_pid (pmtSection video_pid st) 0).length = 188 :=
      psiPacket_length _ _ _ (by simp [pmtSection_length])
    simp [h1, h2]

/-- Witness for the empty-input claim at the empty byte stream. -/
theorem es2ts_empty_input_witness :
    es2tsMain [] false VideoType.h262 0x68 0x66 0 []
      = .ok [psiPacket 0 (patSection 0x66) 0,
             psiPacket 0x66 (pmtSection 0x68 MPEG2_VIDEO_STREAM_TYPE) 0]
    ∧ ([psiPacket 0 (patSection 0x66) 0,
        psiPacket 0x66 (pmtSection 0x68 MPEG2_VIDEO_STREAM_TYPE) 0].flatten).length
      = 376 :=
  es2ts_empty_input VideoType.h262 MPEG2_VIDEO_STREAM_TYPE 0x68 0x66 0 []
    (by decide) (by decide)

/-- C8, counterexample: with video PID and PMT PID both set to the reserved
and colliding value `0x1FFF`, the converter does not fail at configuration
validation — it runs and produces output. -/
theorem es2ts_pid_config_counterexample :
    es2tsMain [] false VideoType.h262 0x1FFF 0x1FFF 0 []
      = .ok [psiPacket 0 (patSection 0x1FFF) 0,
             psiPacket 0x1FFF (pmtSection 0x1FFF MPEG2_VIDEO_STREAM_TYPE) 0]
    ∧ es2tsMain [] false VideoType.h262 0x1FFF 0x1FFF 0 [] ≠ Except.error 1 := by
  refine ⟨rfl, ?_⟩
  intro h
  rw [show es2tsMain [] false VideoType.h262 0x1FFF 0x1FFF 0 []
      = (.ok [psiPacket 0 (patSection 0x1FFF) 0,
              psiPacket 0x1FFF (pmtSection 0x1FFF MPEG2_VIDEO_STREAM_TYPE) 0] :
        Except Nat (List (List Nat))) from rfl] at h
  exact Except.noConfusion h

/-- C8, amended: `main` performs no PID validation at all — whatever the
video and PMT PID values, reserved or colliding included, the run succeeds
and output is produced. -/
theorem es2ts_pid_config_unchecked (video_pid pmt_pid max2 : Nat)
    (input : List Nat) :
    es2tsMain [] false VideoType.h262 video_pid pmt_pid max2 input
      = .ok (es2ts video_pid pmt_pid MPEG2_VIDEO_STREAM_TYPE max2 input) := rfl

/-- C9: the converter is deterministic — two runs on the same input bytes
with the same configuration yield the same output. -/
theorem es2ts_deterministic (flags : List TypeFlag) (use_stdin : Bool)
    (detected : VideoType) (video_pid pmt_pid max2 : Nat) (input : List Nat)
    (out1 out2 : Except Nat (List (List Nat)))
    (h1 : es2tsMain flags use_stdin detected video_pid pmt_pid max2 input = out1)
    (h2 : es2tsMain flags use_stdin detected video_pid pmt_pid max2 input = out2) :
    out1 = out2 := by
  rw [← h1, ← h2]

/-- Witness for determinism: two concrete runs on the demo input. -/
theorem es2ts_deterministic_witness :
    (Except.ok (es2ts 0x68 0x66 MPEG2_VIDEO_STREAM_TYPE 0 demoES) :
      Except Nat (List (List Nat)))
    = Except.ok (es2ts 0x68 0x66 MPEG2_VIDEO_STREAM_TYPE 0 demoES) :=
  es2ts_deterministic [] false VideoType.h262 0x68 0x66 0 demoES _ _ rfl rfl

/-- C10: `redirect_output` with any null candidate returns 1 and leaves the
installed table untouched; with all five candidates non-null it installs
exactly those five functions and returns 0. -/
theorem redirect_output_null_atomic {α β γ : Type} (fns : print_fns α β γ)
    (pm pe : Option α) (fm fe : Option β) (fl : Option γ) :
    ((pm = none ∨ pe = none ∨ fm = none ∨ fe = none ∨ fl = none) →
      redirect_output fns pm pe fm fe fl = (1, fns))
    ∧ ∀ (a b : α) (c d : β) (e : γ), pm = some a → pe = some b → fm = some c →
        fe = some d → fl = some e →
        redirect_output fns pm pe fm fe fl = (0, ⟨a, b, c, d, e⟩) := by
  constructor
  · intro h
    cases pm <;> cases pe <;> cases fm <;> cases fe <;> cases fl <;>
      simp_all [redirect_output]
  · intro a b c d e h1 h2 h3 h4 h5
    subst h1; subst h2; subst h3; subst h4; subst h5
    rfl

/-- Witness for the redirection claim: one null candidate, then all five
non-null, over a `Nat`-instantiated table. -/
theorem redirect_output_null_atomic_witness :
    redirect_output (⟨1, 2, 3, 4, 5⟩ : print_fns Nat Nat Nat)
        none (some 7) (some 8) (some 9) (some 10) = (1, ⟨1, 2, 3, 4, 5⟩)
    ∧ redirect_output (⟨1, 2, 3, 4, 5⟩ : print_fns Nat Nat Nat)
        (some 6) (some 7) (some 8) (some 9) (some 10) = (0, ⟨6, 7, 8, 9, 10⟩) :=
  ⟨(redirect_output_null_atomic ⟨1, 2, 3, 4, 5⟩ none (some 7) (some 8) (some 9)
      (some 10)).1 (Or.inl rfl),
   (redirect_output_null_atomic ⟨1, 2, 3, 4, 5⟩ (some 6) (some 7) (some 8) (some 9)
      (some 10)).2 6 7 8 9 10 rfl rfl rfl rfl rfl⟩
